import Mathlib

/-!
Shallow embedding of the style-analysis engine of
`src/style_analyzer.py` (class `WebEnabledStyleGuideAnalyzer`): the
content fetcher with its URL-keyed cache, the regex-based text analysis
passes, the live-guidance lookup and the live search with its relevance
ranking.  Python strings are modelled as `List Char` / `String`
(Python string indices are code points, as are Lean `List Char`
positions), Python floats as an exact binary64 model (`PyFloat`: a
mantissa times a power of two, or infinity, with CPython's
correctly rounded division and decimal rounding), the network as an
oracle `String → NetResponse`, and the process-wide cache as an
association list threaded through each operation.  The regular
expressions of the source are fixed word-alternation patterns; they are
embedded as explicit left-to-right scanners with the exact same match
semantics (leftmost match, alternation order, `\b` word boundaries,
non-overlapping continuation past each match).
-/

namespace StyleGuide

/-! ## Character classes and basic string helpers -/

/-- Python `str.split()` / regex `\s` whitespace over the ASCII range:
space, tab, newline, carriage return, vertical tab, form feed. -/
def isPySpace (c : Char) : Bool :=
  c = ' ' || c = '\t' || c = '\n' || c = '\r' || c = '\x0b' || c = '\x0c'

/-- Regex `\w` word characters over the ASCII range: letters, digits,
underscore. -/
def isWordChar (c : Char) : Bool :=
  c.isAlpha || c.isDigit || c = '_'

/-- Python `str.lower()` over the ASCII range (all texts in play are
ASCII). -/
def lowerL (l : List Char) : List Char := l.map Char.toLower

/-- Helper for `splitWs`: `acc` is the current (reversed) in-progress
word. -/
def splitWsAux : List Char → List Char → List (List Char)
  | acc, [] => if acc.isEmpty then [] else [acc.reverse]
  | acc, c :: rest =>
    if isPySpace c then
      if acc.isEmpty then splitWsAux [] rest
      else acc.reverse :: splitWsAux [] rest
    else splitWsAux (c :: acc) rest

/-- Python `str.split()` with no argument: split on whitespace runs,
dropping empty pieces. -/
def splitWs (l : List Char) : List (List Char) := splitWsAux [] l

/-- `' '.join(pieces)`. -/
def joinWithSpace : List (List Char) → List Char
  | [] => []
  | [w] => w
  | w :: rest => w ++ ' ' :: joinWithSpace rest

/-- Is `c` one of the sentence terminators `.`, `!`, `?`. -/
def isSentencePunct (c : Char) : Bool := c = '.' || c = '!' || c = '?'

/-- Helper for `splitSentences`: `inRun` records whether the previous
character belonged to the current terminator run (so the run extends
without a new cut), `acc` is the current (reversed) piece. -/
def splitSentencesAux : Bool → List Char → List Char → List (List Char)
  | _, acc, [] => [acc.reverse]
  | inRun, acc, c :: rest =>
    if isSentencePunct c then
      if inRun then splitSentencesAux true acc rest
      else acc.reverse :: splitSentencesAux true [] rest
    else splitSentencesAux false (c :: acc) rest

/-- Python `re.split(r'[.!?]+', text)`: cut at each maximal run of
sentence terminators, keeping empty pieces (as `re.split` does). -/
def splitSentences (l : List Char) : List (List Char) :=
  splitSentencesAux false [] l

/-- A run of whitespace only (Python falsy `s.strip()`). -/
def isBlankL (l : List Char) : Bool := l.all isPySpace

/-- Index of the leftmost occurrence of `needle` in `hay`
(Python `str.find` / the `in` containment test). -/
def findSub (needle : List Char) : List Char → Option Nat
  | [] => if needle.isEmpty then some 0 else none
  | c :: rest =>
    if needle.isPrefixOf (c :: rest) then some 0
    else (findSub needle rest).map (· + 1)

/-- Python `needle in hay` substring containment. -/
def containsSub (hay needle : List Char) : Bool := (findSub needle hay).isSome

/-- First `n` code points of a string (Python `s[:n]`). -/
def strTake (n : Nat) (s : String) : String := String.mk (s.toList.take n)

/-! ## Python floats: an exact binary64 model

`word_count / max(1, sentence_count)` is CPython float division
(the correctly rounded binary64 of the exact quotient, round to
nearest, ties to even) and `round(x, 1)` is CPython float rounding
(the exact value of the double rounded to the nearest multiple of
1/10, ties to even, re-converted to the nearest double).  A double is
carried as its exact value `m * 2 ^ t`; overflow is `inf`.  The model
below reproduces both operations exactly (checked against CPython on
ties such as 1/20, 3/20, 9/20, on subnormal and overflowing ratios,
and on random big-integer ratios). -/

/-- `⌊log2 n⌋` by fueled halving (fuel `n` suffices: `log2 n ≤ n`). -/
def log2Fuel : Nat → Nat → Nat
  | 0, _ => 0
  | fuel + 1, n => if 2 ≤ n then log2Fuel fuel (n / 2) + 1 else 0

/-- `⌊log2 n⌋` for `n ≥ 1` (0 at 0). -/
def natLog2 (n : Nat) : Nat := log2Fuel n n

/-- Round-half-to-even of the rational `N / D` (`D > 0`) to an
integer, in integer arithmetic: `N / D = Q + R / D` with
`0 ≤ R < D`. -/
def halfEvenDiv (N D : Int) : Int :=
  let Q := N.fdiv D
  let R := N - Q * D
  if 2 * R < D then Q
  else if D < 2 * R then Q + 1
  else if Q % 2 = 0 then Q else Q + 1

/-- `⌊log2 (n / d)⌋` for `n, d ≥ 1`: the candidate
`⌊log2 n⌋ - ⌊log2 d⌋` is exact or one too high; test `2 ^ k ≤ n / d`
in integers. -/
def ratFloorLog2 (n d : Nat) : Int :=
  let k : Int := (natLog2 n : Int) - (natLog2 d : Int)
  if 0 ≤ k then (if d * 2 ^ k.toNat ≤ n then k else k - 1)
  else (if d ≤ n * 2 ^ (-k).toNat then k else k - 1)

/-- A CPython float as this analyzer produces it: a finite binary64
with exact value `m * 2 ^ t`, or positive infinity on overflow (all
ratios the analyzer forms are non-negative). -/
inductive PyFloat where
  | finite (m : Int) (t : Int)
  | inf
deriving DecidableEq

/-- The exact rational value of a finite float. -/
def PyFloat.val? : PyFloat → Option ℚ
  | .finite m t => some ((m : ℚ) * 2 ^ t)
  | .inf => none

/-- The nearest binary64 to `n / d` (`d ≥ 1`), round to nearest, ties
to even: scale by the power of two that leaves 53 significant bits
(clamped at the subnormal scale `2 ^ -1074`), round half to even, and
overflow to `inf` at `2 ^ 1024`.  The scaled quotient lies in
`[2 ^ 52, 2 ^ 53)` before rounding, so `m ≤ 2 ^ 53` and overflow
(`m * 2 ^ t ≥ 2 ^ 1024`) is possible only when `t ≥ 971`, which keeps
the test exponent `1024 - t ≤ 53` small.  Powers are computed in `Nat`
and cast.  This is CPython's `n / d` on non-negative ints. -/
def nearestDoubleNat (n d : Nat) : PyFloat :=
  if n = 0 then .finite 0 0
  else
    let e := ratFloorLog2 n d
    let t := max (e - 52) (-1074)
    let m : Int :=
      if 0 ≤ t then halfEvenDiv n ((d * 2 ^ t.toNat : Nat) : Int)
      else halfEvenDiv ((n * 2 ^ (-t).toNat : Nat) : Int) d
    if 971 ≤ t then
      if ((2 ^ (1024 - t).toNat : Nat) : Int) ≤ m then .inf else .finite m t
    else .finite m t

/-- CPython `round(x, 1)` on a non-negative float: round the exact
value of the double to the nearest multiple of `1 / 10`, ties to even
(`k` is the numerator of tenths), then take the nearest double of that
decimal. -/
def pyFloatRound1 : PyFloat → PyFloat
  | .inf => .inf
  | .finite m t =>
    let k : Int :=
      if 0 ≤ t then m * 10 * ((2 ^ t.toNat : Nat) : Int)
      else halfEvenDiv (m * 10) ((2 ^ (-t).toNat : Nat) : Int)
    nearestDoubleNat k.toNat 10

/-! ## Regex scanners

Every regex in the source is a word-alternation pattern used with
`re.IGNORECASE` (or a case-sensitive literal-tag pattern used for HTML
cleanup).  The scanners below reproduce `re.finditer` / `re.findall`:
scan left to right, at each position try a match (alternatives in
pattern order), on success record it and continue right after the
matched span, otherwise advance one character. -/

/-- `\b`-check after a match whose last character is a word character:
the next character must be absent or a non-word character. -/
def boundaryAfter : List Char → Bool
  | [] => true
  | d :: _ => !isWordChar d

/-- Try the word alternatives of a `\b(w1|w2|...)\b` pattern (all
lowercase, all beginning and ending in word characters) at the head of
`s`, in pattern order; on success return the matched slice of `s`
(original case).  The leading `\b` is checked by the caller. -/
def tryWords (ws : List (List Char)) (s : List Char) : Option (List Char)
  := match ws with
  | [] => none
  | w :: rest =>
    if !w.isEmpty && lowerL (s.take w.length) = w && boundaryAfter (s.drop w.length)
    then some (s.take w.length)
    else tryWords rest s

/-- The verbs of the passive-voice pattern
`\b(is|are|was|were|been|be)\s+\w*ed\b`, in pattern order. -/
def passiveVerbs : List (List Char) :=
  ["is".toList, "are".toList, "was".toList, "were".toList,
   "been".toList, "be".toList]

/-- Try the passive-voice pattern at the head of `s` (leading `\b`
checked by the caller): a verb alternative, one or more whitespace
characters, then a maximal word-character run ending in `ed` (the
trailing `\b` is the end of that maximal run).  Returns the matched
slice of `s`. -/
def tryPassive (vs : List (List Char)) (s : List Char) : Option (List Char)
  := match vs with
  | [] => none
  | v :: rest =>
    let sp := (s.drop v.length).takeWhile isPySpace
    let run := ((s.drop v.length).drop sp.length).takeWhile isWordChar
    let lrun := lowerL run
    if lowerL (s.take v.length) = v && !sp.isEmpty && decide (2 ≤ run.length)
        && lrun.drop (run.length - 2) = ['e', 'd']
    then some (s.take (v.length + sp.length + run.length))
    else tryPassive rest s

/-- Generic `re.finditer` loop for the patterns above: `matchAt` tries a
match at the current head; a match is only attempted when the previous
character is not a word character (the leading `\b`; every pattern
starts with a word character).  Returns `(start position, matched
slice)` pairs, leftmost first, non-overlapping. -/
def scanReFuel (matchAt : List Char → Option (List Char)) :
    Nat → List Char → Nat → Bool → List (Nat × List Char)
  | 0, _, _, _ => []
  | _ + 1, [], _, _ => []
  | fuel + 1, c :: rest, i, prevWord =>
    match (if prevWord then none else matchAt (c :: rest)) with
    | some m =>
      (i, m) :: scanReFuel matchAt fuel (rest.drop (m.length - 1)) (i + m.length)
        (match m.getLast? with
         | some d => isWordChar d
         | none => isWordChar c)
    | none => scanReFuel matchAt fuel rest (i + 1) (isWordChar c)

/-- The scanner at full fuel: every iteration consumes at least one
character, so a fuel equal to the list length never runs out. -/
def scanRe (matchAt : List Char → Option (List Char))
    (s : List Char) (i : Nat) (prevWord : Bool) : List (Nat × List Char) :=
  scanReFuel matchAt s.length s i prevWord

/-- All matches of a word-alternation pattern in `text`:
`re.finditer(pattern, text, re.IGNORECASE)`. -/
def findWordMatches (ws : List (List Char)) (text : List Char) :
    List (Nat × List Char) :=
  scanRe (tryWords ws) text 0 false

/-- All matches of the passive-voice pattern in `text`. -/
def findPassiveMatches (text : List Char) : List (Nat × List Char) :=
  scanRe (tryPassive passiveVerbs) text 0 false

/-- The contraction alternatives of
`\b(it's|you're|we're|don't|can't|won't|let's|you'll|we'll)\b`. -/
def contractionWords : List (List Char) :=
  ["it's".toList, "you're".toList, "we're".toList, "don't".toList,
   "can't".toList, "won't".toList, "let's".toList, "you'll".toList,
   "we'll".toList]

/-- The single alternative of `\byou\b`. -/
def youWords : List (List Char) := ["you".toList]

/-- The alternatives of the non-inclusive-terms pattern
`\b(guys|mankind|blacklist|whitelist|master|slave|crazy|insane|lame)\b`. -/
def nonInclusiveWords : List (List Char) :=
  ["guys".toList, "mankind".toList, "blacklist".toList,
   "whitelist".toList, "master".toList, "slave".toList,
   "crazy".toList, "insane".toList, "lame".toList]

/-! ## HTML cleanup (`fetch_web_content` body processing) -/

/-- Match of `<tag[^>]*>.*?</tag>` (with `re.DOTALL`) at the head of
`s`: the literal opener, a run of non-`>` characters, `>`, then the
nearest closer.  Returns the total matched length minus one (the match
is never empty, so this is well-defined and lets the scanner below
recurse on the tail). -/
def blockSkip (openT closeT s : List Char) : Option Nat :=
  if openT.isPrefixOf s then
    let r1 := s.drop openT.length
    match List.findIdx? (fun c => c = '>') r1 with
    | none => none
    | some k =>
      match findSub closeT (r1.drop (k + 1)) with
      | none => none
      | some m => some (openT.length + k + 1 + m + closeT.length - 1)
  else none

def pySubDeleteFuel (openT closeT : List Char) :
    Nat → List Char → List Char
  | 0, l => l
  | _ + 1, [] => []
  | fuel + 1, c :: rest =>
    match blockSkip openT closeT (c :: rest) with
    | some n => pySubDeleteFuel openT closeT fuel (rest.drop n)
    | none => c :: pySubDeleteFuel openT closeT fuel rest

/-- `re.sub(r'<tag[^>]*>.*?</tag>', '', s, flags=re.DOTALL)`: delete
every such block, scanning left to right, non-overlapping (fueled by
the list length; every iteration consumes at least one character). -/
def pySubDelete (openT closeT : List Char) (s : List Char) : List Char :=
  pySubDeleteFuel openT closeT s.length s

def stripTagsFuel : Nat → List Char → List Char
  | 0, l => l
  | _ + 1, [] => []
  | fuel + 1, c :: rest =>
    if c = '<' then
      match List.findIdx? (fun d => d = '>') rest with
      | some k =>
        if k = 0 then c :: stripTagsFuel fuel rest
        else ' ' :: stripTagsFuel fuel (rest.drop (k + 1))
      | none => c :: stripTagsFuel fuel rest
    else c :: stripTagsFuel fuel rest

/-- `re.sub(r'<[^>]+>', ' ', s)`: replace every tag (a `<`, at least
one non-`>` character, then `>`) by a single space (fueled by the list
length; every iteration consumes at least one character). -/
def stripTags (s : List Char) : List Char := stripTagsFuel s.length s

/-- Match of `<title>([^<]+)</title>` at the head of `s`: returns the
group (the non-empty run of non-`<` characters). -/
def titleAt (s : List Char) : Option (List Char) :=
  let ot := "<title>".toList
  if ot.isPrefixOf s then
    let r := s.drop ot.length
    let run := r.takeWhile (fun d => !(d = '<'))
    if !run.isEmpty && ("</title>".toList).isPrefixOf (r.drop run.length)
    then some run
    else none
  else none

/-- `re.search(r'<title>([^<]+)</title>', content)`: group 1 of the
leftmost match. -/
def findTitle : List Char → Option (List Char)
  | [] => none
  | c :: rest =>
    match titleAt (c :: rest) with
    | some t => some t
    | none => findTitle rest

/-- The body-processing pipeline of `fetch_web_content` on a 200
response: title extraction (with its default), `<script>`/`<style>`
block removal, tag stripping, whitespace collapsing.  Returns
`(title, normalized full text)`. -/
def processBody (body : String) : String × String :=
  let cs := body.toList
  let title := match findTitle cs with
    | some t => String.mk t
    | none => "Microsoft Style Guide"
  let t1 := pySubDelete "<script".toList "</script>".toList cs
  let t2 := pySubDelete "<style".toList "</style>".toList t1
  let t3 := stripTags t2
  let t4 := joinWithSpace (splitWs t3)
  (title, String.mk t4)

/-! ## Data model -/

/-- A network response for `session.get(url)`: an HTTP response with a
status code and body, or a raised transport exception with its
message. -/
inductive NetResponse where
  | http (status : Nat) (body : String)
  | exc (msg : String)

/-- The successful-fetch dictionary of `fetch_web_content` (minus the
constant `success: True` flag, carried by the `FetchResult.ok`
constructor). -/
structure FetchSuccess where
  url : String
  title : String
  content : String
  full_content : String
  timestamp : ℚ
deriving DecidableEq

/-- The result dictionary of `fetch_web_content`: success, or failure
with an error message (`success: False`). -/
inductive FetchResult where
  | ok (r : FetchSuccess)
  | err (error : String) (url : String)
deriving DecidableEq

/-- Association-list lookup (Python `dict` access). -/
def assocFind {α : Type} (m : List (String × α)) (k : String) : Option α :=
  match m.find? (fun p => p.1 == k) with
  | some p => some p.2
  | none => none

/-- Association-list assignment (Python `dict` item assignment: an
existing key keeps its position, a new key is appended). -/
def assocSet {α : Type} (m : List (String × α)) (k : String) (v : α) :
    List (String × α) :=
  if m.any (fun p => p.1 == k) then
    m.map (fun p => if p.1 == k then (k, v) else p)
  else m ++ [(k, v)]

/-- `self.content_cache`: the URL-keyed cache of successful fetches. -/
abbrev Cache := List (String × FetchSuccess)

/-- `self.style_guide_base_url`. -/
def style_guide_base_url : String :=
  "https://learn.microsoft.com/en-us/style-guide"

/-- `self.core_urls` (a Python dict; insertion order). -/
def core_urls : List (String × String) :=
  [("voice_tone", style_guide_base_url ++ "/brand-voice-above-all-simple-human"),
   ("top_tips", style_guide_base_url ++ "/top-10-tips-style-voice"),
   ("bias_free", style_guide_base_url ++ "/bias-free-communication"),
   ("writing_tips", style_guide_base_url ++ "/global-communications/writing-tips"),
   ("welcome", style_guide_base_url ++ "/welcome/"),
   ("word_list", style_guide_base_url ++ "/a-z-word-list-term-collections")]

/-- One entry of `self.terminology_standards`. -/
structure TermStandard where
  key : String
  correct : String
  avoid : List String
  note : String
deriving DecidableEq

/-- `self.terminology_standards` (a Python dict; insertion order). -/
def terminology_standards : List TermStandard :=
  [⟨"AI", "AI", ["A.I."], "No periods"⟩,
   ⟨"email", "email", ["e-mail"], "One word"⟩,
   ⟨"website", "website", ["web site"], "One word"⟩,
   ⟨"sign_in", "sign in (verb), sign-in (noun)", ["login", "log in"],
    "Microsoft standard"⟩,
   ⟨"setup", "set up (verb), setup (noun)", ["setup (verb)"],
    "Context dependent"⟩,
   ⟨"wifi", "Wi-Fi", ["WiFi", "wifi"], "Hyphenated, both caps"⟩]

/-! ## `fetch_web_content` -/

/-- `fetch_web_content(url)`: cache check first (a hit is returned
unconditionally, with no timestamp comparison), then the network; a 200
response is parsed and cached, a non-200 status or a raised exception
becomes a failure value and leaves the cache untouched.  `net` is the
network oracle, `now` the event-loop clock reading. -/
def fetch_web_content (net : String → NetResponse) (now : ℚ)
    (cache : Cache) (url : String) : FetchResult × Cache :=
  match assocFind cache url with
  | some e => (.ok e, cache)
  | none =>
    match net url with
    | .http status body =>
      if status = 200 then
        let p := processBody body
        let r : FetchSuccess :=
          ⟨url, p.1, strTake 2000 p.2, p.2, now⟩
        (.ok r, assocSet cache url r)
      else (.err ("HTTP " ++ toString status) url, cache)
    | .exc m => (.err m url, cache)

/-! ## `get_official_guidance` -/

/-- One entry of a guidance result list (Python key `section` is
`sectionName` here, `section` being a Lean keyword). -/
structure GuidanceResult where
  sectionName : String
  title : String
  url : String
  content : String
  official : Bool
deriving DecidableEq

/-- The `topic_mappings` dict of `get_official_guidance` (insertion
order). -/
def topic_mappings : List (String × String) :=
  [("voice", "voice_tone"), ("tone", "voice_tone"), ("tips", "top_tips"),
   ("bias", "bias_free"), ("inclusive", "bias_free"),
   ("writing", "writing_tips"), ("grammar", "writing_tips"),
   ("words", "word_list"), ("terminology", "word_list")]

/-- `get_official_guidance(topic)`: map the topic to relevant sections
(every mapping key contained in the lowercased topic; all sections when
none matches), fetch up to the first 3, keep the successful fetches. -/
def get_official_guidance (net : String → NetResponse) (now : ℚ)
    (coreUrls : List (String × String)) (cache : Cache) (topic : String) :
    List GuidanceResult × Cache :=
  let topicLower := lowerL topic.toList
  let relevantA := topic_mappings.foldl
    (fun acc p => if containsSub topicLower p.1.toList then acc ++ [p.2] else acc)
    []
  let relevant := if relevantA.isEmpty then coreUrls.map Prod.fst else relevantA
  (relevant.take 3).foldl
    (fun acc sec =>
      match assocFind coreUrls sec with
      | none => acc
      | some url =>
        let fr := fetch_web_content net now acc.2 url
        match fr.1 with
        | .ok r => (acc.1 ++ [⟨sec, r.title, url, r.content, true⟩], fr.2)
        | .err _ _ => (acc.1, fr.2))
    ([], cache)

/-! ## `analyze_content` -/

/-- An issue dictionary (keys that are absent from a given issue kind
are `none`). -/
structure Issue where
  type : String
  severity : String
  message : String
  principle : Option String := none
  position : Option Nat := none
  text : Option String := none
  note : Option String := none
deriving DecidableEq

/-- A suggestion dictionary. -/
structure Suggestion where
  type : String
  message : String
  principle : String
deriving DecidableEq

/-- The result dictionary of `analyze_content` (the `statistics`
sub-dictionary is inlined). -/
structure AnalysisResult where
  status : String
  assessment : String
  word_count : Nat
  sentence_count : Nat
  avg_words_per_sentence : PyFloat
  issues : List Issue
  suggestions : List Suggestion
  total_issues : Nat
  analysis_type : String
  style_guide_url : String
  live_guidance : List (String × GuidanceResult)
  web_enabled : Bool
  timestamp : ℚ
deriving DecidableEq

/-- The environment an analyzer call runs in: the network oracle, the
event-loop clock, and the iteration order CPython chooses for
`list(set(xs))` — Python sets are unordered, so the order is a
parameter; any admissible instance (see `IsSetLike`) yields a faithful
run. -/
structure Env where
  net : String → NetResponse
  now : ℚ
  setOrder : List String → List String

/-- The info-level voice_tone issue recommending contractions. -/
def contractionIssue : Issue :=
  { type := "voice_tone", severity := "info",
    message := "Consider using contractions (it's, you're, we'll) for a more natural tone",
    principle := some "warm_and_relaxed" }

/-- The positive suggestion emitted when `n > 0` contraction matches
were counted. -/
def contractionSuggestion (n : Nat) : Suggestion :=
  ⟨"positive",
   "Good use of contractions (" ++ toString n ++ " found) - supports warm, natural tone",
   "warm_and_relaxed"⟩

/-- The positive suggestion emitted when `n > 0` matches of `\byou\b`
were counted. -/
def youSuggestion (n : Nat) : Suggestion :=
  ⟨"positive",
   "Good use of 'you' (" ++ toString n ++ " instances) - directly engages readers",
   "ready_to_help"⟩

/-- A grammar issue for a passive-voice match `(position, slice)`. -/
def grammarIssue (pm : Nat × List Char) : Issue :=
  { type := "grammar", severity := "warning", position := some pm.1,
    text := some (String.mk pm.2),
    message := "Consider using active voice for clarity",
    principle := some "crisp_and_clear" }

/-- A terminology issue for the disallowed variant `a` of `std`. -/
def terminologyIssue (std : TermStandard) (a : String) : Issue :=
  { type := "terminology", severity := "warning", text := some a,
    message := "Use '" ++ std.correct ++ "' instead of '" ++ a ++ "'",
    note := some std.note }

/-- An accessibility issue for a non-inclusive-term match
`(position, slice)`. -/
def accessibilityIssue (pm : Nat × List Char) : Issue :=
  { type := "accessibility", severity := "error", position := some pm.1,
    text := some (String.mk pm.2),
    message := "'" ++ String.mk pm.2 ++ "' may not be inclusive - consider alternatives",
    principle := some "bias_free_communication" }

/-- `len(re.findall(self.patterns["contractions"], text, re.IGNORECASE))`. -/
def contractionCount (text : String) : Nat :=
  (findWordMatches contractionWords text.toList).length

/-- `len(re.findall(self.patterns["you_addressing"], text, re.IGNORECASE))`. -/
def youCount (text : String) : Nat :=
  (findWordMatches youWords text.toList).length

/-- The grammar pass: one warning issue per passive-voice match. -/
def grammarIssues (text : String) : List Issue :=
  (findPassiveMatches text.toList).map grammarIssue

/-- The terminology pass: for every standard, for every disallowed
variant, a case-insensitive substring containment test against the full
text. -/
def terminologyIssues (text : String) : List Issue :=
  terminology_standards.flatMap (fun std =>
    std.avoid.filterMap (fun a =>
      if containsSub (lowerL text.toList) (lowerL a.toList)
      then some (terminologyIssue std a)
      else none))

/-- The accessibility pass: one error issue per non-inclusive-term
match. -/
def accessibilityIssues (text : String) : List Issue :=
  (findWordMatches nonInclusiveWords text.toList).map accessibilityIssue

/-- `len(text.split())`. -/
def wordCount (text : String) : Nat := (splitWs text.toList).length

/-- `len([s for s in re.split(r'[.!?]+', text) if s.strip()])`. -/
def sentenceCount (text : String) : Nat :=
  ((splitSentences text.toList).filter (fun s => !isBlankL s)).length

/-- `round(word_count / max(1, sentence_count), 1)` under Python
float semantics: correctly rounded binary64 division, then CPython's
one-decimal float round. -/
def avgWords (text : String) : PyFloat :=
  pyFloatRound1 (nearestDoubleNat (wordCount text) (max 1 (sentenceCount text)))

/-- One iteration of the live-guidance loop of `analyze_content`: look
up official guidance for issue type `t` and attach the first result
when there is one
(`live_guidance[issue_type] = guidance["guidance"][0]`). -/
def guidanceStep (env : Env)
    (acc : List (String × GuidanceResult) × Cache) (t : String) :
    List (String × GuidanceResult) × Cache :=
  (match (get_official_guidance env.net env.now core_urls acc.2 t).1.head? with
   | some g0 => assocSet acc.1 t g0
   | none => acc.1,
   (get_official_guidance env.net env.now core_urls acc.2 t).2)

/-- The live-guidance loop of `analyze_content` over the selected issue
types. -/
def buildLiveGuidance (env : Env) (cache : Cache) (ks : List String) :
    List (String × GuidanceResult) × Cache :=
  ks.foldl (guidanceStep env) ([], cache)

/-- The issue list `analyze_content` accumulates: the positive-signal
pass (always), then the grammar, terminology and accessibility passes,
each gated on `analysis_type`, appended in source order. -/
def analyzeIssues (text analysis_type : String) : List Issue :=
  (if contractionCount text > 0 then [] else [contractionIssue])
  ++ (if analysis_type = "comprehensive" ∨ analysis_type = "grammar"
      then grammarIssues text else [])
  ++ (if analysis_type = "comprehensive" ∨ analysis_type = "terminology"
      then terminologyIssues text else [])
  ++ (if analysis_type = "comprehensive" ∨ analysis_type = "accessibility"
      then accessibilityIssues text else [])

/-- The suggestion list `analyze_content` accumulates (the two positive
signals, in source order). -/
def analyzeSuggestions (text : String) : List Suggestion :=
  (if contractionCount text > 0
   then [contractionSuggestion (contractionCount text)] else [])
  ++ (if youCount text > 0 then [youSuggestion (youCount text)] else [])

/-- The status string for a total issue count: `0 → Excellent`,
`≤ 2 → Good`, otherwise `Needs Work`. -/
def statusOf (total : Nat) : String :=
  if total = 0 then "✅ Excellent"
  else if total ≤ 2 then "⚠️ Good"
  else "❌ Needs Work"

/-- The assessment string for a total issue count. -/
def assessmentOf (total : Nat) : String :=
  if total = 0 then "Content follows Microsoft Style Guide principles well"
  else if total ≤ 2 then "Minor style improvements suggested"
  else "Multiple style issues detected"

/-- `analyze_content(text, analysis_type)`: statistics, the
always-running positive-signal pass, the three conditional passes, the
live-guidance lookup for the first two `list(set(...))`-ordered issue
types, and the status derivation. -/
def analyze_content (env : Env) (cache : Cache) (text : String)
    (analysis_type : String) : AnalysisResult × Cache :=
  let issues := analyzeIssues text analysis_type
  let lgp :=
    if issues.isEmpty then ([], cache)
    else buildLiveGuidance env cache ((env.setOrder (issues.map Issue.type)).take 2)
  ({ status := statusOf issues.length, assessment := assessmentOf issues.length,
     word_count := wordCount text, sentence_count := sentenceCount text,
     avg_words_per_sentence := avgWords text, issues := issues,
     suggestions := analyzeSuggestions text, total_issues := issues.length,
     analysis_type := analysis_type, style_guide_url := style_guide_base_url,
     live_guidance := lgp.1, web_enabled := true, timestamp := env.now },
   lgp.2)

/-! ## `search_style_guide_live` -/

/-- One entry of the live-search result list (Python key `section` is
`sectionName`). -/
structure SearchResult where
  sectionName : String
  title : String
  url : String
  relevance : String
  content_preview : String
  official : Bool
deriving DecidableEq

/-- The result dictionary of `search_style_guide_live`. -/
structure SearchOutput where
  query : String
  results : List SearchResult
  total_found : Nat
  timestamp : ℚ
deriving DecidableEq

/-- The sort key `(x["relevance"] == "high", x["section"])`, with the
Python booleans `False < True` encoded as `0 < 1`. -/
def resKey (r : SearchResult) : Nat × String :=
  (if r.relevance == "high" then 1 else 0, r.sectionName)

/-- Strict lexicographic order on sort keys. -/
def keyLt (a b : Nat × String) : Prop :=
  a.1 < b.1 ∨ (a.1 = b.1 ∧ a.2 < b.2)

instance (a b : Nat × String) : Decidable (keyLt a b) := by
  unfold keyLt; infer_instance

/-- Insert `x` before the first element whose key is not strictly
greater: the stable descending insertion. -/
def insertDesc (x : SearchResult) : List SearchResult → List SearchResult
  | [] => [x]
  | h :: t => if keyLt (resKey x) (resKey h) then h :: insertDesc x t
              else x :: h :: t

/-- `search_results.sort(key=lambda x: (x["relevance"] == "high",
x["section"]), reverse=True)`: the stable sort descending by key (a
stable descending insertion sort produces the same list as CPython's
stable sort with `reverse=True`). -/
def pySortDesc (l : List SearchResult) : List SearchResult :=
  l.foldr insertDesc []

/-- The relevance score of a fetched section for the query tokens:
`sum(1 for term in search_terms if term in content)` with `content`
the lowercased normalized full text. -/
def sectionScore (search_terms : List (List Char)) (r : FetchSuccess) : Nat :=
  search_terms.countP (fun t => containsSub (lowerL r.full_content.toList) t)

/-- The loop body of `search_style_guide_live`: fetch one catalog
section, score it by the number of query tokens contained in its
lowercased normalized text, and append a `high`/`medium` labelled
result when the score is positive. -/
def searchStep (net : String → NetResponse) (now : ℚ)
    (search_terms : List (List Char)) (acc : List SearchResult × Cache)
    (p : String × String) : List SearchResult × Cache :=
  let fr := fetch_web_content net now acc.2 p.2
  match fr.1 with
  | .ok r =>
    let score := sectionScore search_terms r
    if 0 < score then
      let entry : SearchResult :=
        { sectionName := p.1, title := r.title, url := p.2,
          relevance := (if search_terms.length / 2 ≤ score then "high"
                         else "medium"),
          content_preview := r.content, official := true }
      (acc.1 ++ [entry], fr.2)
    else (acc.1, fr.2)
  | .err _ _ => (acc.1, fr.2)

/-- `search_style_guide_live(query)`: tokenize the query, score every
catalog section (`searchStep`), sort by relevance and section id
descending, and truncate to the top 5.  `coreUrls` is the
`self.core_urls` attribute (its value at construction is
`core_urls`). -/
def search_style_guide_live (net : String → NetResponse) (now : ℚ)
    (coreUrls : List (String × String)) (cache : Cache) (query : String) :
    SearchOutput × Cache :=
  let search_terms := splitWs (lowerL query.toList)
  let res := coreUrls.foldl (searchStep net now search_terms) ([], cache)
  let sorted := pySortDesc res.1
  ({ query := query, results := sorted.take 5, total_found := res.1.length,
     timestamp := now }, res.2)

/-! ## Auxiliary notions for the claims -/

/-- Insertion-order deduplication: the distinct elements of `l` in
first-seen order. -/
def firstSeenDedupAux (seen : List String) : List String → List String
  | [] => []
  | x :: rest =>
    if x ∈ seen then firstSeenDedupAux seen rest
    else x :: firstSeenDedupAux (x :: seen) rest

/-- The distinct elements of `l` in first-seen order. -/
def firstSeenDedup (l : List String) : List String := firstSeenDedupAux [] l

/-- Admissibility of a `list(set(...))` order: the output is duplicate
free and has exactly the elements of the input.  This is everything
CPython guarantees about iterating a set of strings. -/
def IsSetLike (f : List String → List String) : Prop :=
  ∀ l, (f l).Nodup ∧ ∀ x, x ∈ f l ↔ x ∈ l

/-- An admissible `list(set(...))` order that is not first-seen order:
the distinct elements in reversed first-seen order. -/
def revOrder (l : List String) : List String := (firstSeenDedup l).reverse

/-- A network oracle whose every response is a small successful page. -/
def okNet : String → NetResponse := fun _ => .http 200 "<title>T</title>ok"

/-- A network oracle that always raises (connection failure). -/
def downNet : String → NetResponse := fun _ => .exc "offline"

/-- A network oracle that always answers 404. -/
def notFoundNet : String → NetResponse := fun _ => .http 404 "x"

/-- An environment with no reachable network and first-seen set order. -/
def plainEnv : Env := ⟨downNet, 0, firstSeenDedup⟩

/-- An environment with a live network and first-seen set order. -/
def seenEnv : Env := ⟨okNet, 0, firstSeenDedup⟩

/-- An environment with a live network and reversed set order. -/
def revEnv : Env := ⟨okNet, 0, revOrder⟩

/-- The predicate "an info-severity voice_tone issue". -/
def isVoiceInfo (i : Issue) : Bool :=
  i.type == "voice_tone" && i.severity == "info"

/-- Positive-score evidence for a returned search result: some positive
score yields exactly this relevance label under the `high` threshold
for `tlen` query tokens. -/
def ScoreOk (tlen : Nat) (r : SearchResult) : Prop :=
  ∃ score : Nat, 0 < score ∧
    r.relevance = (if tlen / 2 ≤ score then "high" else "medium")

/-- A returned search result, tied to the content actually fetched for
it: the result's `(section, url)` pair is an entry of the catalog; the
cache `c` (instantiated with the final cache of the search call) holds
fetched content `e` for the result's URL, which `fetch_web_content`
returns from `c` unconditionally; the relevance score of `e` for the
query tokens is positive (a zero-score section is never returned); and
the result's relevance label is the one the threshold assigns to that
score. -/
def ResultTied (net : String → NetResponse) (now : ℚ)
    (terms : List (List Char)) (coreUrls : List (String × String))
    (c : Cache) (r : SearchResult) : Prop :=
  (r.sectionName, r.url) ∈ coreUrls ∧
  ∃ e : FetchSuccess,
    fetch_web_content net now c r.url = (.ok e, c) ∧
    0 < sectionScore terms e ∧
    r.relevance =
      (if terms.length / 2 ≤ sectionScore terms e then "high" else "medium")

/-! ## Lemmas about the descending stable sort -/

theorem keyLt_trans {a b c : Nat × String} (h1 : keyLt a b) (h2 : keyLt b c) :
    keyLt a c := by
  rcases h1 with h1 | ⟨e1, h1⟩ <;> rcases h2 with h2 | ⟨e2, h2⟩
  · exact Or.inl (lt_trans h1 h2)
  · exact Or.inl (e2 ▸ h1)
  · exact Or.inl (e1 ▸ h2)
  · exact Or.inr ⟨e1.trans e2, lt_trans h1 h2⟩

theorem keyLt_trichotomy (a b : Nat × String) :
    keyLt a b ∨ a = b ∨ keyLt b a := by
  rcases Nat.lt_trichotomy a.1 b.1 with h | h | h
  · exact Or.inl (Or.inl h)
  · rcases lt_trichotomy a.2 b.2 with h2 | h2 | h2
    · exact Or.inl (Or.inr ⟨h, h2⟩)
    · exact Or.inr (Or.inl (Prod.ext h h2))
    · exact Or.inr (Or.inr (Or.inr ⟨h.symm, h2⟩))
  · exact Or.inr (Or.inr (Or.inl h))

theorem keyLt_irrefl (a : Nat × String) : ¬ keyLt a a := by
  rintro (h | ⟨_, h⟩) <;> exact lt_irrefl _ h

theorem keyLt_asymm {a b : Nat × String} (h : keyLt a b) : ¬ keyLt b a :=
  fun h2 => keyLt_irrefl a (keyLt_trans h h2)

theorem not_keyLt_trans {a b c : Nat × String}
    (h1 : ¬ keyLt a b) (h2 : ¬ keyLt b c) : ¬ keyLt a c := by
  intro h
  rcases keyLt_trichotomy a b with hab | rfl | hab
  · exact h1 hab
  · exact h2 h
  · exact h2 (keyLt_trans hab h)

theorem mem_insertDesc {x y : SearchResult} {l : List SearchResult} :
    y ∈ insertDesc x l ↔ y = x ∨ y ∈ l := by
  induction l with
  | nil => simp [insertDesc]
  | cons h t ih =>
    by_cases hk : keyLt (resKey x) (resKey h) <;>
      simp [insertDesc, hk, ih] <;> tauto

theorem pairwise_insertDesc {x : SearchResult} {l : List SearchResult}
    (hl : l.Pairwise (fun a b => ¬ keyLt (resKey a) (resKey b))) :
    (insertDesc x l).Pairwise (fun a b => ¬ keyLt (resKey a) (resKey b)) := by
  induction l with
  | nil => simp [insertDesc]
  | cons h t ih =>
    rcases List.pairwise_cons.mp hl with ⟨hh, ht⟩
    by_cases hk : keyLt (resKey x) (resKey h)
    · rw [insertDesc, if_pos hk]
      refine List.pairwise_cons.mpr ⟨?_, ih ht⟩
      intro y hy
      rcases mem_insertDesc.mp hy with rfl | hy
      · exact keyLt_asymm hk
      · exact hh y hy
    · rw [insertDesc, if_neg hk]
      refine List.pairwise_cons.mpr ⟨?_, hl⟩
      intro y hy
      rcases List.mem_cons.mp hy with rfl | hy
      · exact hk
      · exact not_keyLt_trans hk (hh y hy)

theorem pairwise_pySortDesc (l : List SearchResult) :
    (pySortDesc l).Pairwise (fun a b => ¬ keyLt (resKey a) (resKey b)) := by
  induction l with
  | nil => simp [pySortDesc]
  | cons h t ih => exact pairwise_insertDesc ih

theorem mem_pySortDesc {y : SearchResult} {l : List SearchResult}
    (h : y ∈ pySortDesc l) : y ∈ l := by
  induction l with
  | nil => simpa [pySortDesc] using h
  | cons a t ih =>
    rcases mem_insertDesc.mp h with rfl | h2
    · exact List.mem_cons_self _ _
    · exact List.mem_cons_of_mem _ (ih h2)

/-! ## Lemmas about the search fold -/

theorem searchStep_inv (net : String → NetResponse) (now : ℚ)
    (terms : List (List Char)) (acc : List SearchResult × Cache)
    (p : String × String) (h : ∀ r ∈ acc.1, ScoreOk terms.length r) :
    ∀ r ∈ (searchStep net now terms acc p).1, ScoreOk terms.length r := by
  intro r hr
  simp only [searchStep] at hr
  split at hr
  · split at hr
    · rename_i hpos
      rcases List.mem_append.mp hr with hmem | hmem
      · exact h r hmem
      · rw [List.mem_singleton] at hmem
        subst hmem
        exact ⟨_, hpos, rfl⟩
    · exact h r hr
  · exact h r hr

theorem searchFold_inv (net : String → NetResponse) (now : ℚ)
    (terms : List (List Char)) (catalog : List (String × String)) :
    ∀ (acc : List SearchResult × Cache),
    (∀ r ∈ acc.1, ScoreOk terms.length r) →
    ∀ r ∈ (catalog.foldl (searchStep net now terms) acc).1,
      ScoreOk terms.length r := by
  induction catalog with
  | nil => intro acc h; simpa using h
  | cons p ps ih =>
    intro acc h
    exact ih _ (searchStep_inv net now terms acc p h)

/-! ## Lemmas about the cache -/

theorem find_map_set {α : Type} (m : List (String × α)) (k : String) (v : α)
    (hk : m.any (fun p => p.1 == k) = true) :
    (m.map (fun p => if p.1 == k then (k, v) else p)).find?
      (fun p => p.1 == k) = some (k, v) := by
  induction m with
  | nil => simp at hk
  | cons p t ih =>
    by_cases hp : (p.1 == k) = true
    · rw [List.map_cons, if_pos hp]
      exact List.find?_cons_of_pos _ (by simp)
    · have ht : t.any (fun q => q.1 == k) = true := by
        rcases (List.any_eq_true).mp hk with ⟨q, hq, hqk⟩
        rcases List.mem_cons.mp hq with rfl | hq
        · exact absurd hqk (by simp [hp])
        · exact (List.any_eq_true).mpr ⟨q, hq, hqk⟩
      rw [List.map_cons, if_neg (by simp [hp] : ¬ (p.1 == k) = true)]
      rw [List.find?_cons_of_neg _ (by simpa using hp)]
      exact ih ht

theorem find_append_single {α : Type} (m : List (String × α)) (k : String)
    (v : α) (hk : m.any (fun p => p.1 == k) = false) :
    (m ++ [(k, v)]).find? (fun p => p.1 == k) = some (k, v) := by
  induction m with
  | nil => exact List.find?_cons_of_pos _ (by simp)
  | cons p t ih =>
    have hp : (p.1 == k) = false := by
      by_contra hc
      simp only [List.any_cons, Bool.or_eq_false_iff] at hk
      exact hc hk.1
    have ht : t.any (fun q => q.1 == k) = false := by
      simp only [List.any_cons, Bool.or_eq_false_iff] at hk
      exact hk.2
    rw [List.cons_append, List.find?_cons_of_neg _ (by simpa using hp)]
    exact ih ht

theorem assocFind_assocSet_self {α : Type} (m : List (String × α))
    (k : String) (v : α) : assocFind (assocSet m k v) k = some v := by
  unfold assocSet
  split
  · rename_i hk
    unfold assocFind
    rw [find_map_set m k v hk]
  · rename_i hk
    unfold assocFind
    rw [find_append_single m k v (Bool.not_eq_true _ ▸ hk)]

theorem find_map_set_ne {α : Type} (m : List (String × α))
    {k k2 : String} (v : α) (hne : k ≠ k2) :
    (m.map (fun p => if p.1 == k2 then (k2, v) else p)).find?
      (fun p => p.1 == k) = m.find? (fun p => p.1 == k) := by
  induction m with
  | nil => rfl
  | cons p t ih =>
    rw [List.map_cons]
    by_cases hp2 : (p.1 == k2) = true
    · rw [if_pos hp2]
      have hk2k : (k2 == k) = false := beq_eq_false_iff_ne.mpr (Ne.symm hne)
      have hpk : (p.1 == k) = false := by
        rw [eq_of_beq hp2]
        exact beq_eq_false_iff_ne.mpr (Ne.symm hne)
      rw [List.find?_cons_of_neg _ (by simp [hk2k]),
          List.find?_cons_of_neg _ (by simp [hpk])]
      exact ih
    · rw [if_neg hp2]
      by_cases hpk : (p.1 == k) = true
      · rw [List.find?_cons_of_pos _ (by simp [hpk]),
            List.find?_cons_of_pos _ (by simp [hpk])]
      · rw [List.find?_cons_of_neg _ (by simpa using hpk),
            List.find?_cons_of_neg _ (by simpa using hpk)]
        exact ih

theorem find_append_single_ne {α : Type} (m : List (String × α))
    {k k2 : String} (v : α) (hne : k ≠ k2) :
    (m ++ [(k2, v)]).find? (fun p => p.1 == k)
      = m.find? (fun p => p.1 == k) := by
  induction m with
  | nil =>
    rw [List.nil_append]
    exact List.find?_cons_of_neg _
      (by simpa using beq_eq_false_iff_ne.mpr (Ne.symm hne))
  | cons p t ih =>
    by_cases hpk : (p.1 == k) = true
    · rw [List.cons_append, List.find?_cons_of_pos _ (by simp [hpk]),
          List.find?_cons_of_pos _ (by simp [hpk])]
    · rw [List.cons_append, List.find?_cons_of_neg _ (by simpa using hpk),
          List.find?_cons_of_neg _ (by simpa using hpk)]
      exact ih

theorem assocFind_assocSet_ne {α : Type} (m : List (String × α))
    {k k2 : String} (v : α) (hne : k ≠ k2) :
    assocFind (assocSet m k2 v) k = assocFind m k := by
  unfold assocSet
  split
  · unfold assocFind
    rw [find_map_set_ne m v hne]
  · unfold assocFind
    rw [find_append_single_ne m v hne]

theorem fetch_success_cached (net : String → NetResponse) (now : ℚ)
    (cache : Cache) (url : String) (r : FetchSuccess) (cache' : Cache)
    (h : fetch_web_content net now cache url = (.ok r, cache')) :
    assocFind cache' url = some r := by
  unfold fetch_web_content at h
  split at h
  · rename_i e he
    simp only [Prod.mk.injEq, FetchResult.ok.injEq] at h
    obtain ⟨rfl, rfl⟩ := h
    exact he
  · split at h
    · split at h
      · simp only [Prod.mk.injEq, FetchResult.ok.injEq] at h
        obtain ⟨rfl, rfl⟩ := h
        exact assocFind_assocSet_self cache url _
      · simp at h
    · simp at h

theorem fetch_hit (net : String → NetResponse) (now : ℚ) (c : Cache)
    (url : String) (e : FetchSuccess) (h : assocFind c url = some e) :
    fetch_web_content net now c url = (.ok e, c) := by
  unfold fetch_web_content
  rw [h]

theorem fetch_preserves_find (net : String → NetResponse) (now : ℚ)
    (c : Cache) (u k : String) (e : FetchSuccess)
    (h : assocFind c k = some e) :
    assocFind (fetch_web_content net now c u).2 k = some e := by
  unfold fetch_web_content
  split
  · exact h
  · rename_i hu
    split
    · split
      · have hne : k ≠ u := by
          intro hk
          rw [hk, hu] at h
          exact absurd h (by simp)
        exact (assocFind_assocSet_ne c _ hne).trans h
      · exact h
    · exact h

theorem searchStep_snd (net : String → NetResponse) (now : ℚ)
    (terms : List (List Char)) (acc : List SearchResult × Cache)
    (p : String × String) :
    (searchStep net now terms acc p).2
      = (fetch_web_content net now acc.2 p.2).2 := by
  simp only [searchStep]
  split
  · split
    · rfl
    · rfl
  · rfl

theorem searchStep_tied (net : String → NetResponse) (now : ℚ)
    (terms : List (List Char)) (coreUrls : List (String × String))
    (acc : List SearchResult × Cache) (p : String × String)
    (hp : p ∈ coreUrls)
    (h : ∀ r ∈ acc.1, ResultTied net now terms coreUrls acc.2 r) :
    ∀ r ∈ (searchStep net now terms acc p).1,
      ResultTied net now terms coreUrls (searchStep net now terms acc p).2 r := by
  obtain ⟨sec, url⟩ := p
  have hpres : ∀ r, ResultTied net now terms coreUrls acc.2 r →
      ResultTied net now terms coreUrls
        (searchStep net now terms acc (sec, url)).2 r := by
    rintro r ⟨hmem, e, hf, hpos, hrel⟩
    refine ⟨hmem, e, ?_, hpos, hrel⟩
    have hfind : assocFind acc.2 r.url = some e :=
      fetch_success_cached net now acc.2 r.url e acc.2 hf
    have hfind2 : assocFind (searchStep net now terms acc (sec, url)).2 r.url
        = some e := by
      rw [searchStep_snd]
      exact fetch_preserves_find net now acc.2 url r.url e hfind
    exact fetch_hit net now _ r.url e hfind2
  intro r hr
  simp only [searchStep] at hr
  split at hr
  · rename_i r0 heq
    split at hr
    · rename_i hpos
      rcases List.mem_append.mp hr with hmem | hmem
      · exact hpres r (h r hmem)
      · rw [List.mem_singleton] at hmem
        subst hmem
        refine ⟨hp, r0, ?_, hpos, rfl⟩
        have hfull : fetch_web_content net now acc.2 url
            = (.ok r0, (fetch_web_content net now acc.2 url).2) := by
          rw [← heq]
        have hfind := fetch_success_cached net now acc.2 url r0 _ hfull
        have hsnd : (searchStep net now terms acc (sec, url)).2
            = (fetch_web_content net now acc.2 url).2 :=
          searchStep_snd net now terms acc (sec, url)
        rw [hsnd]
        exact fetch_hit net now _ url r0 hfind
    · exact hpres r (h r hr)
  · exact hpres r (h r hr)

theorem searchFold_tied (net : String → NetResponse) (now : ℚ)
    (terms : List (List Char)) (coreUrls : List (String × String)) :
    ∀ (l : List (String × String)), (∀ p ∈ l, p ∈ coreUrls) →
    ∀ (acc : List SearchResult × Cache),
    (∀ r ∈ acc.1, ResultTied net now terms coreUrls acc.2 r) →
    ∀ r ∈ (l.foldl (searchStep net now terms) acc).1,
      ResultTied net now terms coreUrls
        (l.foldl (searchStep net now terms) acc).2 r := by
  intro l
  induction l with
  | nil => intro _ acc h; simpa using h
  | cons p ps ih =>
    intro hl acc h
    exact ih (fun q hq => hl q (List.mem_cons_of_mem _ hq)) _
      (searchStep_tied net now terms coreUrls acc p
        (hl p (List.mem_cons_self _ _)) h)

/-! ## Lemmas about `firstSeenDedup` and set-order admissibility -/

theorem mem_firstSeenDedupAux (l : List String) :
    ∀ (seen : List String) (x : String),
    x ∈ firstSeenDedupAux seen l ↔ x ∈ l ∧ x ∉ seen := by
  induction l with
  | nil => intro seen x; simp [firstSeenDedupAux]
  | cons a t ih =>
    intro seen x
    by_cases ha : a ∈ seen
    · rw [firstSeenDedupAux, if_pos ha, ih]
      constructor
      · rintro ⟨h1, h2⟩; exact ⟨List.mem_cons_of_mem _ h1, h2⟩
      · rintro ⟨h1, h2⟩
        rcases List.mem_cons.mp h1 with rfl | h1
        · exact absurd ha h2
        · exact ⟨h1, h2⟩
    · rw [firstSeenDedupAux, if_neg ha]
      constructor
      · intro hm
        rcases List.mem_cons.mp hm with rfl | hm
        · exact ⟨List.mem_cons_self _ _, ha⟩
        · obtain ⟨h1, h2⟩ := (ih _ x).mp hm
          refine ⟨List.mem_cons_of_mem _ h1, fun hs => h2 ?_⟩
          exact List.mem_cons_of_mem _ hs
      · rintro ⟨h1, h2⟩
        rcases List.mem_cons.mp h1 with rfl | h1
        · exact List.mem_cons_self _ _
        · by_cases hxa : x = a
          · subst hxa; exact List.mem_cons_self _ _
          · refine List.mem_cons_of_mem _ ((ih _ x).mpr ⟨h1, ?_⟩)
            intro hs
            rcases List.mem_cons.mp hs with h | h
            · exact hxa h
            · exact h2 h

theorem nodup_firstSeenDedupAux (l : List String) :
    ∀ seen : List String, (firstSeenDedupAux seen l).Nodup := by
  induction l with
  | nil => intro seen; simp [firstSeenDedupAux]
  | cons a t ih =>
    intro seen
    rw [firstSeenDedupAux]
    split
    · exact ih seen
    · refine List.nodup_cons.mpr ⟨?_, ih _⟩
      intro hmem
      exact ((mem_firstSeenDedupAux t _ a).mp hmem).2 (List.mem_cons_self a seen)

theorem isSetLike_firstSeenDedup : IsSetLike firstSeenDedup := by
  intro l
  refine ⟨nodup_firstSeenDedupAux l [], fun x => ?_⟩
  rw [firstSeenDedup, mem_firstSeenDedupAux]
  simp

theorem isSetLike_revOrder : IsSetLike revOrder := by
  intro l
  obtain ⟨h1, h2⟩ := isSetLike_firstSeenDedup l
  refine ⟨List.nodup_reverse.mpr h1, fun x => ?_⟩
  rw [revOrder, List.mem_reverse]
  exact h2 x

/-! ## Lemmas about the live-guidance keys -/

theorem keys_assocSet {α : Type} (m : List (String × α)) (k : String)
    (v : α) :
    (assocSet m k v).map Prod.fst =
      if m.any (fun p => p.1 == k) then m.map Prod.fst
      else m.map Prod.fst ++ [k] := by
  unfold assocSet
  split
  · rename_i hk
    rw [List.map_map]
    refine List.map_congr_left ?_
    intro p _
    by_cases hpk : (p.1 == k) = true
    · simp only [Function.comp_apply, if_pos hpk]
      exact (eq_of_beq hpk).symm
    · have hne : p.1 ≠ k := by simpa using hpk
      simp [Function.comp_apply, hne]
  · rename_i hk
    rw [List.map_append]
    rfl

theorem any_false_key_not_mem {α : Type} {m : List (String × α)}
    {k : String} (h : ¬ m.any (fun p => p.1 == k) = true) :
    k ∉ m.map Prod.fst := by
  intro hmem
  rcases List.mem_map.mp hmem with ⟨p, hp, rfl⟩
  exact h (List.any_eq_true.mpr ⟨p, hp, by simp⟩)

theorem nodup_keys_assocSet {α : Type} {m : List (String × α)}
    {k : String} {v : α} (h : (m.map Prod.fst).Nodup) :
    ((assocSet m k v).map Prod.fst).Nodup := by
  rw [keys_assocSet]
  split
  · exact h
  · rename_i hk
    simp only [List.nodup_append, List.nodup_cons, List.nodup_nil]
    exact ⟨h, by simp, by simpa using any_false_key_not_mem hk⟩

theorem mem_keys_assocSet {α : Type} {m : List (String × α)}
    {k x : String} {v : α}
    (h : x ∈ (assocSet m k v).map Prod.fst) :
    x ∈ m.map Prod.fst ∨ x = k := by
  rw [keys_assocSet] at h
  split at h
  · exact Or.inl h
  · rcases List.mem_append.mp h with h | h
    · exact Or.inl h
    · exact Or.inr (List.mem_singleton.mp h)

theorem guidanceStep_keys (env : Env)
    (acc : List (String × GuidanceResult) × Cache) (t : String)
    (h : (acc.1.map Prod.fst).Nodup) :
    ((guidanceStep env acc t).1.map Prod.fst).Nodup ∧
    ∀ x ∈ (guidanceStep env acc t).1.map Prod.fst,
      x ∈ acc.1.map Prod.fst ∨ x = t := by
  unfold guidanceStep
  constructor
  · split
    · exact nodup_keys_assocSet h
    · exact h
  · intro x hx
    dsimp only at hx
    split at hx
    · exact mem_keys_assocSet hx
    · exact Or.inl hx

theorem guidanceFold_keys (env : Env) (ks : List String) :
    ∀ acc : List (String × GuidanceResult) × Cache,
    (acc.1.map Prod.fst).Nodup →
    ((ks.foldl (guidanceStep env) acc).1.map Prod.fst).Nodup ∧
    ∀ x ∈ (ks.foldl (guidanceStep env) acc).1.map Prod.fst,
      x ∈ acc.1.map Prod.fst ∨ x ∈ ks := by
  induction ks with
  | nil => intro acc h; exact ⟨h, fun x hx => Or.inl hx⟩
  | cons t ts ih =>
    intro acc h
    obtain ⟨h1, h2⟩ := guidanceStep_keys env acc t h
    obtain ⟨h1', h2'⟩ := ih (guidanceStep env acc t) h1
    refine ⟨h1', fun x hx => ?_⟩
    rcases h2' x hx with hx2 | hx2
    · rcases h2 x hx2 with hx3 | rfl
      · exact Or.inl hx3
      · exact Or.inr (List.mem_cons_self _ _)
    · exact Or.inr (List.mem_cons_of_mem _ hx2)

/-! ## Lemmas about the analysis passes -/

theorem isVoiceInfo_grammar (text : String) :
    ∀ i ∈ grammarIssues text, isVoiceInfo i = false := by
  intro i hi
  rcases List.mem_map.mp hi with ⟨pm, _, rfl⟩
  rfl

theorem isVoiceInfo_terminology (text : String) :
    ∀ i ∈ terminologyIssues text, isVoiceInfo i = false := by
  intro i hi
  simp only [terminologyIssues, List.mem_flatMap, List.mem_filterMap] at hi
  obtain ⟨std, _, a, _, ha⟩ := hi
  split at ha
  · injection ha with ha
    subst ha
    rfl
  · exact absurd ha (by simp)

theorem isVoiceInfo_accessibility (text : String) :
    ∀ i ∈ accessibilityIssues text, isVoiceInfo i = false := by
  intro i hi
  rcases List.mem_map.mp hi with ⟨pm, _, rfl⟩
  rfl

theorem countP_isVoiceInfo_analyzeIssues (text atype : String) :
    (analyzeIssues text atype).countP isVoiceInfo =
      if contractionCount text > 0 then 0 else 1 := by
  unfold analyzeIssues
  rw [List.countP_append, List.countP_append, List.countP_append]
  have hg : (if atype = "comprehensive" ∨ atype = "grammar"
      then grammarIssues text else []).countP isVoiceInfo = 0 := by
    split
    · exact List.countP_eq_zero.mpr
        (fun a ha => by simp [isVoiceInfo_grammar text a ha])
    · rfl
  have ht : (if atype = "comprehensive" ∨ atype = "terminology"
      then terminologyIssues text else []).countP isVoiceInfo = 0 := by
    split
    · exact List.countP_eq_zero.mpr
        (fun a ha => by simp [isVoiceInfo_terminology text a ha])
    · rfl
  have ha : (if atype = "comprehensive" ∨ atype = "accessibility"
      then accessibilityIssues text else []).countP isVoiceInfo = 0 := by
    split
    · exact List.countP_eq_zero.mpr
        (fun a ha => by simp [isVoiceInfo_accessibility text a ha])
    · rfl
  rw [hg, ht, ha]
  split
  · rfl
  · rfl

theorem statusOf_ne_needsWork {n : Nat} (h : n ≤ 2) :
    statusOf n ≠ "❌ Needs Work" := by
  unfold statusOf
  by_cases h0 : n = 0
  · rw [if_pos h0]; decide
  · rw [if_neg h0, if_pos h]; decide

/-! ## Claim theorems -/

/-- C1: for every query and every section catalog,
`search_style_guide_live` excludes sections whose relevance score is
zero — every returned result's URL has fetched content in the search
call's final cache, and the relevance score of that content for the
query tokens is positive, with the `high`/`medium` label assigned by
the half-token-count threshold on that score (`ResultTied`) — orders
all high-relevance entries before any medium-relevance entry, breaks
ties within a relevance level by section identifier in descending
lexicographic order, and returns at most 5 results. -/
theorem C1_search_live_ordering (net : String → NetResponse) (now : ℚ)
    (coreUrls : List (String × String)) (cache : Cache) (query : String) :
    (search_style_guide_live net now coreUrls cache query).1.results.length ≤ 5 ∧
    (search_style_guide_live net now coreUrls cache query).1.results.Pairwise
      (fun a b => (b.relevance = "high" → a.relevance = "high") ∧
        (a.relevance = b.relevance → b.sectionName ≤ a.sectionName)) ∧
    ∀ r ∈ (search_style_guide_live net now coreUrls cache query).1.results,
      ResultTied net now (splitWs (lowerL query.toList)) coreUrls
        (search_style_guide_live net now coreUrls cache query).2 r := by
  have hres : (search_style_guide_live net now coreUrls cache query).1.results
      = (pySortDesc ((coreUrls.foldl
          (searchStep net now (splitWs (lowerL query.toList)))
          ([], cache)).1)).take 5 := rfl
  refine ⟨?_, ?_, ?_⟩
  · rw [hres]; exact List.length_take_le _ _
  · rw [hres]
    have hp := pairwise_pySortDesc ((coreUrls.foldl
        (searchStep net now (splitWs (lowerL query.toList))) ([], cache)).1)
    have hp2 := hp.sublist (List.take_sublist 5 _)
    refine hp2.imp ?_
    intro a b hab
    refine ⟨?_, ?_⟩
    · intro hb
      by_contra ha
      apply hab
      have hb' : (b.relevance == "high") = true := by simp [hb]
      have ha' : (a.relevance == "high") = false := beq_eq_false_iff_ne.mpr ha
      exact Or.inl (by simp [resKey, hb', ha'])
    · intro he
      have hr : (resKey a).1 = (resKey b).1 := by simp [resKey, he]
      have hs : ¬ a.sectionName < b.sectionName :=
        fun hs => hab (Or.inr ⟨hr, hs⟩)
      exact le_of_not_lt hs
  · rw [hres]
    intro r hr
    exact searchFold_tied net now (splitWs (lowerL query.toList)) coreUrls
      coreUrls (fun p hp => hp) ([], cache) (by simp)
      r (mem_pySortDesc (List.take_subset _ _ hr))

/-- C10: for every query consisting of exactly one whitespace-delimited
token, every result returned by `search_style_guide_live` has relevance
`high` and never `medium`: inclusion requires a positive score, and the
`high` threshold `1 / 2 = 0` is then always met. -/
theorem C10_single_token_all_high (net : String → NetResponse) (now : ℚ)
    (coreUrls : List (String × String)) (cache : Cache) (query : String)
    (h : (splitWs (lowerL query.toList)).length = 1) :
    ∀ r ∈ (search_style_guide_live net now coreUrls cache query).1.results,
      r.relevance = "high" := by
  intro r hr
  have hmem : r ∈ (coreUrls.foldl
      (searchStep net now (splitWs (lowerL query.toList))) ([], cache)).1 :=
    mem_pySortDesc (List.take_subset 5 _ hr)
  obtain ⟨score, hpos, hrel⟩ :=
    searchFold_inv net now _ coreUrls ([], cache) (by simp) r hmem
  rw [hrel, h, if_pos (by omega : 1 / 2 ≤ score)]

/-- C10 witness: a concrete one-token query against a live one-entry
catalog, every returned result labelled `high`. -/
theorem C10_witness :
    (splitWs (lowerL ("bias" : String).toList)).length = 1 ∧
    ∀ r ∈ (search_style_guide_live okNet 0 [("s1", "u1")] [] "bias").1.results,
      r.relevance = "high" :=
  ⟨by decide,
   C10_single_token_all_high okNet 0 [("s1", "u1")] [] "bias" (by decide)⟩

/-- C7: once a fetch has successfully returned (and hence stored or
found) the cache entry for a URL, every subsequent
`fetch_web_content` call for that URL returns that entry
unconditionally — for any network oracle and any clock reading, with
the cache unchanged — so the full text returned by a second call is
identical to the first, with no TTL re-check and no network access. -/
theorem C7_fetch_idempotent (net : String → NetResponse) (now : ℚ)
    (cache : Cache) (url : String) (r : FetchSuccess) (cache' : Cache)
    (h : fetch_web_content net now cache url = (.ok r, cache')) :
    ∀ (net2 : String → NetResponse) (now2 : ℚ),
      fetch_web_content net2 now2 cache' url = (.ok r, cache') := by
  have hl := fetch_success_cached net now cache url r cache' h
  intro net2 now2
  unfold fetch_web_content
  rw [hl]

/-- The entry the C7 witness fetch stores. -/
def w7entry : FetchSuccess := ⟨"u", "T", "T ok", "T ok", 0⟩

/-- C7 witness: a concrete successful fetch, then a second call under a
dead network at a later clock returns the identical entry. -/
theorem C7_witness :
    fetch_web_content okNet 0 [] "u" = (.ok w7entry, [("u", w7entry)]) ∧
    fetch_web_content downNet 7 [("u", w7entry)] "u"
      = (.ok w7entry, [("u", w7entry)]) :=
  ⟨by decide,
   C7_fetch_idempotent okNet 0 [] "u" w7entry [("u", w7entry)]
     (by decide) downNet 7⟩

theorem fetch_unchanged_or_ok (net : String → NetResponse) (now : ℚ)
    (cache : Cache) (url : String) :
    (fetch_web_content net now cache url).2 = cache ∨
    ∃ r, (fetch_web_content net now cache url).1 = FetchResult.ok r := by
  unfold fetch_web_content
  split
  · exact Or.inl rfl
  · split
    · split
      · exact Or.inr ⟨_, rfl⟩
      · exact Or.inl rfl
    · exact Or.inl rfl

/-- C8: `fetch_web_content` never raises past its boundary (it is a
total function into result data): on a cache miss, a non-200 response
yields the failure value with error `HTTP <code>` and an unchanged
cache; a network exception yields the failure value carrying the
message and an unchanged cache; and the cache changes only when the
fetch succeeds. -/
theorem C8_fetch_failures (net : String → NetResponse) (now : ℚ)
    (cache : Cache) (url : String) :
    (∀ s b, assocFind cache url = none → net url = .http s b → s ≠ 200 →
      fetch_web_content net now cache url
        = (.err ("HTTP " ++ toString s) url, cache)) ∧
    (∀ m, assocFind cache url = none → net url = .exc m →
      fetch_web_content net now cache url = (.err m url, cache)) ∧
    ((fetch_web_content net now cache url).2 ≠ cache →
      ∃ r, (fetch_web_content net now cache url).1 = .ok r) := by
  refine ⟨?_, ?_, ?_⟩
  · intro s b hc hn hs
    unfold fetch_web_content
    simp only [hc, hn, if_neg hs]
  · intro m hc hn
    unfold fetch_web_content
    simp only [hc, hn]
  · intro hne
    rcases fetch_unchanged_or_ok net now cache url with h | h
    · exact absurd h hne
    · exact h

/-- C8 witness: a concrete 404 failure, a concrete exception failure
(both leaving the empty cache empty) and a concrete cache change that
only a success produced. -/
theorem C8_witness :
    fetch_web_content notFoundNet 0 [] "u"
      = (.err ("HTTP " ++ toString 404) "u", []) ∧
    fetch_web_content downNet 0 [] "u" = (.err "offline" "u", []) ∧
    ∃ r, (fetch_web_content okNet 0 [] "u").1 = .ok r :=
  ⟨(C8_fetch_failures notFoundNet 0 [] "u").1 404 "x" (by decide) rfl
     (by decide),
   (C8_fetch_failures downNet 0 [] "u").2.1 "offline" (by decide) rfl,
   (C8_fetch_failures okNet 0 [] "u").2.2 (by decide)⟩

/-- C2: the status label of `analyze_content` is the Excellent label
(`"✅ Excellent"`) exactly when the produced issue list is empty, the
Good label (`"⚠️ Good"`) when it has 1 or 2 issues, and the Needs-Work
label (`"❌ Needs Work"`) when it has 3 or more — for every text and
analysis type. -/
theorem C2_status_thresholds (env : Env) (cache : Cache)
    (text atype : String) :
    ((analyze_content env cache text atype).1.issues.length = 0 →
      (analyze_content env cache text atype).1.status = "✅ Excellent") ∧
    ((analyze_content env cache text atype).1.issues.length = 1 ∨
        (analyze_content env cache text atype).1.issues.length = 2 →
      (analyze_content env cache text atype).1.status = "⚠️ Good") ∧
    (3 ≤ (analyze_content env cache text atype).1.issues.length →
      (analyze_content env cache text atype).1.status = "❌ Needs Work") := by
  have e : (analyze_content env cache text atype).1.status
      = statusOf (analyze_content env cache text atype).1.issues.length := rfl
  refine ⟨?_, ?_, ?_⟩
  · intro h; rw [e, h]; rfl
  · rintro (h | h) <;> rw [e, h] <;> rfl
  · intro h
    rw [e]
    unfold statusOf
    rw [if_neg (by omega), if_neg (by omega)]

/-- C2 witness: concrete runs reaching all three labels. -/
theorem C2_witness :
    ((analyze_content plainEnv [] "We'll help." "comprehensive").1.issues.length = 0 ∧
      (analyze_content plainEnv [] "We'll help." "comprehensive").1.status
        = "✅ Excellent") ∧
    ((analyze_content plainEnv [] "" "comprehensive").1.issues.length = 1 ∧
      (analyze_content plainEnv [] "" "comprehensive").1.status = "⚠️ Good") ∧
    ((analyze_content plainEnv [] "guys guys guys" "accessibility").1.issues.length = 4 ∧
      (analyze_content plainEnv [] "guys guys guys" "accessibility").1.status
        = "❌ Needs Work") :=
  ⟨⟨by decide, (C2_status_thresholds plainEnv [] "We'll help." "comprehensive").1
      (by decide)⟩,
   ⟨by decide, (C2_status_thresholds plainEnv [] "" "comprehensive").2.1
      (Or.inl (by decide))⟩,
   ⟨by decide, (C2_status_thresholds plainEnv [] "guys guys guys" "accessibility").2.2
      (by decide)⟩⟩

/-- C5: `analyze_content` computes `word_count` as the whitespace-split
token count, `sentence_count` as the number of non-blank spans after
splitting on runs of `.`, `!`, `?`, and `avg_words_per_sentence` as
`round(word_count / max(1, sentence_count), 1)` under Python float
semantics (correctly rounded binary64 division, then CPython's
one-decimal float round); on the text `"Hello world. Hi."` this gives
`word_count = 3`, `sentence_count = 2` and an
`avg_words_per_sentence` whose exact value is `1.5`. -/
theorem C5_statistics (env : Env) (cache : Cache) (text atype : String) :
    ((analyze_content env cache text atype).1.word_count = wordCount text ∧
     (analyze_content env cache text atype).1.sentence_count = sentenceCount text ∧
     (analyze_content env cache text atype).1.avg_words_per_sentence
       = pyFloatRound1 (nearestDoubleNat (wordCount text)
           (max 1 (sentenceCount text)))) ∧
    ((analyze_content env cache "Hello world. Hi." atype).1.word_count = 3 ∧
     (analyze_content env cache "Hello world. Hi." atype).1.sentence_count = 2 ∧
     ((analyze_content env cache
         "Hello world. Hi." atype).1.avg_words_per_sentence).val?
       = some (3 / 2)) := by
  refine ⟨⟨rfl, rfl, rfl⟩, ⟨?_, ?_, ?_⟩⟩
  · show wordCount "Hello world. Hi." = 3
    decide
  · show sentenceCount "Hello world. Hi." = 2
    decide
  · show (avgWords "Hello world. Hi.").val? = some (3 / 2)
    rw [show avgWords "Hello world. Hi."
        = PyFloat.finite 6755399441055744 (-52) from by decide]
    rw [PyFloat.val?]
    norm_num

/-- C4: for every text with zero contraction-pattern matches,
`analyze_content` emits exactly one info-severity voice_tone issue (the
contraction recommendation); for every text with at least one match it
emits the positive contraction suggestion instead and no such penalty
issue — regardless of `analysis_type`. -/
theorem C4_contraction_signal (env : Env) (cache : Cache)
    (text atype : String) :
    (contractionCount text = 0 →
      (analyze_content env cache text atype).1.issues.countP isVoiceInfo = 1 ∧
      contractionIssue ∈ (analyze_content env cache text atype).1.issues) ∧
    (0 < contractionCount text →
      (analyze_content env cache text atype).1.issues.countP isVoiceInfo = 0 ∧
      contractionSuggestion (contractionCount text)
        ∈ (analyze_content env cache text atype).1.suggestions) := by
  have ei : (analyze_content env cache text atype).1.issues
      = analyzeIssues text atype := rfl
  have es : (analyze_content env cache text atype).1.suggestions
      = analyzeSuggestions text := rfl
  constructor
  · intro h
    constructor
    · rw [ei, countP_isVoiceInfo_analyzeIssues, if_neg (by omega)]
    · rw [ei]
      unfold analyzeIssues
      rw [if_neg (by omega)]
      simp
  · intro h
    constructor
    · rw [ei, countP_isVoiceInfo_analyzeIssues, if_pos (by omega)]
    · rw [es]
      unfold analyzeSuggestions
      rw [if_pos (by omega)]
      simp

/-- C4 witness: a contraction-free text carries exactly the penalty
issue; a text with a contraction carries the positive suggestion and no
penalty issue. -/
theorem C4_witness :
    (contractionCount "plain text" = 0 ∧
      ((analyze_content plainEnv [] "plain text" "voice_tone").1.issues.countP
          isVoiceInfo = 1 ∧
        contractionIssue
          ∈ (analyze_content plainEnv [] "plain text" "voice_tone").1.issues)) ∧
    (0 < contractionCount "it's fine" ∧
      ((analyze_content plainEnv [] "it's fine" "voice_tone").1.issues.countP
          isVoiceInfo = 0 ∧
        contractionSuggestion (contractionCount "it's fine")
          ∈ (analyze_content plainEnv [] "it's fine" "voice_tone").1.suggestions)) :=
  ⟨⟨by decide,
    (C4_contraction_signal plainEnv [] "plain text" "voice_tone").1 (by decide)⟩,
   ⟨by decide,
    (C4_contraction_signal plainEnv [] "it's fine" "voice_tone").2 (by decide)⟩⟩

/-- C9: `analyze_content` never validates `analysis_type`: for every
value outside the four recognized ones only the positive-signal pass
runs, so the issue list has at most one element and the status is never
the Needs-Work label. -/
theorem C9_unknown_analysis_type (env : Env) (cache : Cache)
    (text atype : String)
    (h : atype ≠ "comprehensive" ∧ atype ≠ "grammar" ∧
         atype ≠ "terminology" ∧ atype ≠ "accessibility") :
    (analyze_content env cache text atype).1.issues.length ≤ 1 ∧
    (analyze_content env cache text atype).1.status ≠ "❌ Needs Work" := by
  obtain ⟨h1, h2, h3, h4⟩ := h
  have ei : (analyze_content env cache text atype).1.issues
      = analyzeIssues text atype := rfl
  have hlen : (analyzeIssues text atype).length ≤ 1 := by
    unfold analyzeIssues
    rw [if_neg (show ¬(atype = "comprehensive" ∨ atype = "grammar") by tauto),
        if_neg (show ¬(atype = "comprehensive" ∨ atype = "terminology") by tauto),
        if_neg (show ¬(atype = "comprehensive" ∨ atype = "accessibility") by tauto)]
    split <;> simp
  constructor
  · rw [ei]; exact hlen
  · have es : (analyze_content env cache text atype).1.status
        = statusOf (analyzeIssues text atype).length := rfl
    rw [es]
    exact statusOf_ne_needsWork (by omega)

/-- C9 witness: the documented value `voice_tone` is not one of the
four recognized analysis types and yields at most one issue and a
non-Needs-Work status. -/
theorem C9_witness :
    ("voice_tone" ≠ "comprehensive" ∧ "voice_tone" ≠ "grammar" ∧
     "voice_tone" ≠ "terminology" ∧ "voice_tone" ≠ "accessibility") ∧
    ((analyze_content plainEnv [] "Hello." "voice_tone").1.issues.length ≤ 1 ∧
     (analyze_content plainEnv [] "Hello." "voice_tone").1.status
       ≠ "❌ Needs Work") :=
  ⟨by decide,
   C9_unknown_analysis_type plainEnv [] "Hello." "voice_tone" (by decide)⟩

/-- C6: on `"Please e-mail support for login help."` with either
terminology-covering analysis type, `analyze_content` produces exactly
two terminology issues: one recommending `email` instead of `e-mail`
and one recommending the sign-in standard instead of `login` (no other
disallowed variant, such as `log in`, occurs in that text). -/
theorem C6_terminology_example (env : Env) (cache : Cache) :
    ((analyze_content env cache "Please e-mail support for login help."
        "terminology").1.issues.filter (fun i => i.type == "terminology")
      = [terminologyIssue ⟨"email", "email", ["e-mail"], "One word"⟩ "e-mail",
         terminologyIssue ⟨"sign_in", "sign in (verb), sign-in (noun)",
           ["login", "log in"], "Microsoft standard"⟩ "login"]) ∧
    ((analyze_content env cache "Please e-mail support for login help."
        "comprehensive").1.issues.filter (fun i => i.type == "terminology")
      = [terminologyIssue ⟨"email", "email", ["e-mail"], "One word"⟩ "e-mail",
         terminologyIssue ⟨"sign_in", "sign in (verb), sign-in (noun)",
           ["login", "log in"], "Microsoft standard"⟩ "login"]) := by
  constructor
  · rw [show (analyze_content env cache
        "Please e-mail support for login help." "terminology").1.issues
      = analyzeIssues "Please e-mail support for login help." "terminology"
      from rfl]
    decide
  · rw [show (analyze_content env cache
        "Please e-mail support for login help." "comprehensive").1.issues
      = analyzeIssues "Please e-mail support for login help." "comprehensive"
      from rfl]
    decide

/-- C3 (amended): under any admissible `list(set(...))` iteration
order, live guidance is looked up for at most 2 distinct issue
categories, taken from the set-iteration order of the produced issues'
categories, each one the category of some produced issue, with at most
one guidance item attached per category.  The set-iteration order is
not guaranteed to be first-seen order (see the counterexample). -/
theorem C3_guidance_selection (env : Env) (cache : Cache)
    (text atype : String) (hset : IsSetLike env.setOrder) :
    (analyze_content env cache text atype).1.live_guidance.length ≤ 2 ∧
    ((analyze_content env cache text atype).1.live_guidance.map Prod.fst).Nodup ∧
    (∀ t ∈ (analyze_content env cache text atype).1.live_guidance.map Prod.fst,
      t ∈ (env.setOrder ((analyzeIssues text atype).map Issue.type)).take 2) ∧
    (∀ t ∈ (analyze_content env cache text atype).1.live_guidance.map Prod.fst,
      t ∈ (analyze_content env cache text atype).1.issues.map Issue.type) := by
  have e : (analyze_content env cache text atype).1.live_guidance
      = (if (analyzeIssues text atype).isEmpty
         then (([] : List (String × GuidanceResult)), cache)
         else buildLiveGuidance env cache
           ((env.setOrder ((analyzeIssues text atype).map Issue.type)).take 2)).1 := rfl
  by_cases hemp : (analyzeIssues text atype).isEmpty
  · rw [e, if_pos hemp]
    exact ⟨by simp, by simp, by simp, by simp⟩
  · rw [e, if_neg hemp]
    obtain ⟨hnd, hmem⟩ := guidanceFold_keys env
      ((env.setOrder ((analyzeIssues text atype).map Issue.type)).take 2)
      ([], cache) (by simp)
    have hsub : (buildLiveGuidance env cache
        ((env.setOrder ((analyzeIssues text atype).map Issue.type)).take 2)).1.map
          Prod.fst
        ⊆ (env.setOrder ((analyzeIssues text atype).map Issue.type)).take 2 := by
      intro x hx
      rcases hmem x hx with hx2 | hx2
      · simp at hx2
      · exact hx2
    refine ⟨?_, hnd, hsub, ?_⟩
    · calc (buildLiveGuidance env cache
            ((env.setOrder ((analyzeIssues text atype).map Issue.type)).take 2)).1.length
          = ((buildLiveGuidance env cache
            ((env.setOrder ((analyzeIssues text atype).map Issue.type)).take 2)).1.map
              Prod.fst).length := (List.length_map _ _).symm
        _ ≤ ((env.setOrder ((analyzeIssues text atype).map Issue.type)).take 2).length :=
            (List.Nodup.subperm hnd hsub).length_le
        _ ≤ 2 := List.length_take_le _ _
    · intro t ht
      have h3 := List.take_subset _ _ (hsub ht)
      exact ((hset ((analyzeIssues text atype).map Issue.type)).2 t).mp h3

/-- C3 (amended) witness: a concrete admissible order (first-seen
deduplication) on a two-category run. -/
theorem C3_witness :
    IsSetLike seenEnv.setOrder ∧
    ((analyze_content seenEnv [] "The doc was tested." "grammar").1.live_guidance.length ≤ 2 ∧
     ((analyze_content seenEnv [] "The doc was tested." "grammar").1.live_guidance.map
        Prod.fst).Nodup ∧
     (∀ t ∈ (analyze_content seenEnv [] "The doc was tested." "grammar").1.live_guidance.map
        Prod.fst,
       t ∈ (seenEnv.setOrder ((analyzeIssues "The doc was tested." "grammar").map
             Issue.type)).take 2) ∧
     (∀ t ∈ (analyze_content seenEnv [] "The doc was tested." "grammar").1.live_guidance.map
        Prod.fst,
       t ∈ (analyze_content seenEnv [] "The doc was tested." "grammar").1.issues.map
             Issue.type)) :=
  ⟨isSetLike_firstSeenDedup,
   C3_guidance_selection seenEnv [] "The doc was tested." "grammar"
     isSetLike_firstSeenDedup⟩

/-- C3 counterexample: Python's `list(set(...))` iteration order is
unspecified for strings; under the admissible order that reverses
first-seen order, the categories selected for guidance lookup are not
the first 2 distinct issue categories in first-seen order, so the claim
as stated (first-seen order, deterministic) fails on the code. -/
theorem C3_counterexample :
    IsSetLike revEnv.setOrder ∧
    (analyze_content revEnv [] "The doc was tested." "grammar").1.live_guidance.map
        Prod.fst
      ≠ (firstSeenDedup
          ((analyze_content revEnv [] "The doc was tested." "grammar").1.issues.map
            Issue.type)).take 2 :=
  ⟨isSetLike_revOrder, by decide⟩

end StyleGuide
